import Mathlib

set_option linter.dupNamespace false

/-!
Shallow embedding of the debos image-partition action
(`actions/image_partition_action.go`) and the parts of the pipeline driver
(`cmd/debos/debos.go`) its claims depend on.

External commands (parted, mkfs, blkid, losetup, mount/umount system calls)
and the external libraries (`units.FromHumanSize`, Go `path.Join`) are
modelled as explicit oracle parameters: each invocation's outcome is an
input to the embedded function, and the embedding records which outcomes
the Go code inspects and which it discards.

Go method-receiver semantics matter here and are modelled explicitly.
`Verify` has a pointer receiver, so its field assignments persist on the
action stored in the recipe's action list.  `PreNoMachine`, `Run` and
`Cleanup` have value receivers: assignments to scalar fields of the
receiver (such as `usingLoop`) happen on a copy and are lost when the
method returns, while writes that go through the `Partitions` slice's
shared backing array (such as `FSUUID`, written via `*Partition` pointers)
remain visible to later phases.
-/

namespace Debos

/-- One partition descriptor (`type Partition` in the Go source).
`number` is the ordinal assigned by `Verify`; `FSUUID` is filled by
`formatPartition`.  Both are zero-valued (`0`, `""`) until then. -/
structure Partition where
  number : Nat
  Name : String
  Start : String
  End : String
  FS : String
  Flags : List String
  FSUUID : String
deriving DecidableEq, Repr

/-- One mount descriptor (`type Mountpoint` in the Go source).  The Go
field `part *Partition` is a pointer into the backing array of the
action's `Partitions` slice; it is modelled as an optional index into the
partition list (`none` models the nil pointer before `Verify` resolves
it). -/
structure Mountpoint where
  Mountpoint : String
  Partition : String
  Options : List String
  part : Option Nat
deriving DecidableEq, Repr

/-- The image-partition action's own fields (`type ImagePartitionAction`).
`size` is set by `Verify`; `usingLoop` is (intended to be) set by
`PreNoMachine`. -/
structure ImagePartitionAction where
  ImageName : String
  ImageSize : String
  PartitionType : String
  Partitions : List Partition
  Mountpoints : List Mountpoint
  size : Int
  usingLoop : Bool
deriving DecidableEq, Repr

/-- The fields of `debos.DebosContext` that this action reads or writes.
In Go, `ImageKernelRoot` is a plain string whose zero value `""` means
"unset". -/
structure DebosContext where
  Image : String
  Scratchdir : String
  ImageMntDir : String
  ImageFSTab : String
  ImageKernelRoot : String
deriving DecidableEq, Repr

/-- Dereference a mount's partition pointer: the Go `m.part` points into
the backing array of the `Partitions` slice, so it is read against the
current partition list. -/
def derefPart (parts : List Partition) (m : Mountpoint) : Option Partition :=
  match m.part with
  | none => none
  | some idx => parts.get? idx

/-- Prefix test on character lists, used to embed Go `strings.Contains`. -/
def isPrefixCharList : List Char → List Char → Bool
  | [], _ => true
  | _ :: _, [] => false
  | a :: as, b :: bs => a == b && isPrefixCharList as bs

/-- Substring occurrence on character lists. -/
def containsSub (pat : List Char) : List Char → Bool
  | [] => pat.isEmpty
  | c :: rest => isPrefixCharList pat (c :: rest) || containsSub pat rest

/-- Go `strings.Contains s sub`. -/
def goContains (s sub : String) : Bool :=
  containsSub sub.data s.data

/-- Whitespace characters stripped by Go `strings.TrimSpace` (the ASCII
subset; the claims never involve other Unicode spaces). -/
def goIsSpace (c : Char) : Bool :=
  c == ' ' || c == '\t' || c == '\n' || c == '\x0b' || c == '\x0c' || c == '\r'

/-- Drop leading whitespace from a character list. -/
def dropLeadingSpace : List Char → List Char
  | [] => []
  | c :: rest => if goIsSpace c then dropLeadingSpace rest else c :: rest

/-- Go `strings.TrimSpace`: strip whitespace from both ends. -/
def goTrim (s : String) : String :=
  String.mk ((dropLeadingSpace (dropLeadingSpace s.data).reverse).reverse)

/-- Model of Go `path.Join` restricted to the joins the action performs
(it abstracts Go's path cleaning, which no claim depends on). -/
def pathJoin (a b : String) : String :=
  a ++ "/" ++ b

/-- Embeds `ImagePartitionAction.getPartitionDevice` (lines 183-198).  The
suffix is switched to `"-part"` when the image path contains
`"/disk/by-id/"`, but any suffix is emitted only when the path's final
byte is an ASCII digit; otherwise the number is appended bare.  Go indexes
the last byte and would panic on an empty image path; that case is
unreachable in the claims and modelled as the bare append. -/
def getPartitionDevice (image : String) (number : Nat) : String :=
  let suffix := if goContains image "/disk/by-id/" then "-part" else "p"
  match image.data.getLast? with
  | none => image ++ toString number
  | some last =>
    if '0' ≤ last ∧ last ≤ '9' then image ++ suffix ++ toString number
    else image ++ toString number

/-- The filesystem name used in the fstab column (`generateFSTab`,
lines 156-160): the configuration alias "fat32" maps to "vfat", any other
type is used verbatim. -/
def fstabFsType (fs : String) : String :=
  if fs = "fat32" then "vfat" else fs

/-- The filesystem-type argument passed to the mount system call
(`Run`, lines 302-308): "fat32" maps to "vfat", others verbatim. -/
def mountFsType (fs : String) : String :=
  if fs = "fat32" then "vfat" else fs

/-- The mkfs command line built by `formatPartition` (lines 216-223):
`mkfs.vfat -n <name> <device>` for the "fat32" alias, otherwise
`mkfs.<fs> -L <name> <device>`. -/
def mkfsCmdline (p : Partition) (device : String) : List String :=
  (if p.FS = "fat32" then ["mkfs.vfat", "-n", p.Name]
   else ["mkfs." ++ p.FS, "-L", p.Name]) ++ [device]

/-- Embeds `ImagePartitionAction.generateFSTab` (lines 147-167).  The
buffer is reset and one line per mount is appended in declaration order;
a mount whose partition still has an empty `FSUUID` aborts with an error.
A nil `part` pointer (impossible after a successful `Verify`) would make
the Go code panic; it is modelled as an error. -/
def generateFSTab (parts : List Partition) : List Mountpoint → Except String String
  | [] => Except.ok ""
  | m :: rest =>
    match derefPart parts m with
    | none => Except.error "nil part pointer"
    | some p =>
      let options := "defaults" :: m.Options
      if p.FSUUID = "" then
        Except.error ("Missing fs UUID for partition " ++ p.Name ++ "!?!")
      else
        match generateFSTab parts rest with
        | Except.error e => Except.error e
        | Except.ok tail =>
          Except.ok ("UUID=" ++ p.FSUUID ++ "\t" ++ m.Mountpoint ++ "\t" ++
            fstabFsType p.FS ++ "\t" ++ String.intercalate "," options ++
            "\t0\t0\n" ++ tail)

/-- Embeds `ImagePartitionAction.generateKernelRoot` (lines 169-181): walk
the mounts in declaration order, and at the first one whose path is "/"
either fail (empty UUID) or set the parameter and break; if none matches,
leave the current value untouched and succeed. -/
def generateKernelRoot (parts : List Partition) :
    List Mountpoint → String → Except String String
  | [], current => Except.ok current
  | m :: rest, current =>
    if m.Mountpoint = "/" then
      match derefPart parts m with
      | none => Except.error "nil part pointer"
      | some p =>
        if p.FSUUID = "" then Except.error "No fs UUID for root partition !?!"
        else Except.ok ("root=UUID=" ++ p.FSUUID)
    else generateKernelRoot parts rest current

/-- Embeds `ImagePartitionAction.formatPartition` (lines 212-234).  The
mkfs command line is built and run, but its result is DISCARDED by the
source (`debos.Command{}.Run(label, cmdline...)` with no error check);
only the subsequent `blkid` invocation is checked, and its trimmed output
becomes the partition's `FSUUID`. -/
def formatPartition (mkfsResult : Except String Unit)
    (blkidResult : Except String String) (image : String) (p : Partition) :
    Except String Partition :=
  let cmd := mkfsCmdline p (getPartitionDevice image p.number)
  let _ := cmd
  let _ := mkfsResult
  match blkidResult with
  | Except.error e => Except.error ("Failed to get uuid: " ++ e)
  | Except.ok out => Except.ok { p with FSUUID := goTrim out }

/-- Embeds the partition-numbering and per-partition validation loop of
`Verify` (lines 343-361): ordinals are assigned sequentially from `num`
in declaration order, and a missing name/start/end/fs aborts. -/
def verifyPartitions : Nat → List Partition → Except String (List Partition)
  | _, [] => Except.ok []
  | num, p :: rest =>
    let p := { p with number := num }
    if p.Name = "" then Except.error "Partition without a name"
    else if p.Start = "" then
      Except.error ("Partition " ++ p.Name ++ " missing start")
    else if p.End = "" then
      Except.error ("Partition " ++ p.Name ++ " missing end")
    else if p.FS = "" then
      Except.error ("Partition " ++ p.Name ++ " missing fs type")
    else
      match verifyPartitions (num + 1) rest with
      | Except.error e => Except.error e
      | Except.ok rest => Except.ok (p :: rest)

/-- Index of the first partition whose name equals the target, if any:
the inner loop of `Verify`'s mount resolution breaks at the first hit. -/
def findPartIdx (target : String) : List Partition → Option Nat
  | [] => none
  | p :: rest =>
    if target = p.Name then some 0
    else Option.map (fun i => i + 1) (findPartIdx target rest)

/-- Embeds the mount-resolution loop of `Verify` (lines 363-375): each
mount's `part` pointer is set to the FIRST partition whose name matches
(the inner loop breaks at the first hit); a mount with no match aborts. -/
def resolveMounts (parts : List Partition) :
    List Mountpoint → Except String (List Mountpoint)
  | [] => Except.ok []
  | m :: rest =>
    match findPartIdx m.Partition parts with
    | none => Except.error ("Couldn't fount partition for " ++ m.Mountpoint)
    | some idx =>
      match resolveMounts parts rest with
      | Except.error e => Except.error e
      | Except.ok rest => Except.ok ({ m with part := some idx } :: rest)

/-- Embeds `ImagePartitionAction.Verify` (lines 342-384).  `Verify` has a
pointer receiver, so the returned action is the one stored in the recipe's
action list.  `units.FromHumanSize` is an external library and is passed
in as `parseSize` (`none` models its error return). -/
def verify (parseSize : String → Option Int) (a : ImagePartitionAction) :
    Except String ImagePartitionAction :=
  match verifyPartitions 1 a.Partitions with
  | Except.error e => Except.error e
  | Except.ok parts =>
    match resolveMounts parts a.Mountpoints with
    | Except.error e => Except.error e
    | Except.ok mounts =>
      match parseSize a.ImageSize with
      | none => Except.error ("Failed to parse image size: " ++ a.ImageSize)
      | some size =>
        Except.ok { a with
          Partitions := parts, Mountpoints := mounts, size := size }

/-- Outcomes of the host operations performed by `PreNoMachine`:
opening/creating the image file, truncating it to size, and
`losetup -f --show` (whose `.ok` value is the loop-device path the
command printed). -/
structure PreOracle where
  openResult : Except String Unit
  truncateResult : Except String Unit
  losetup : Except String String
deriving Repr

/-- Embeds `ImagePartitionAction.PreNoMachine` (lines 236-258).  The
method has a VALUE receiver: the returned action is the method's local
copy, whose `usingLoop := true` assignment the caller never sees (the Go
caller invokes the method and keeps its own stored action).  The context
update (`context.Image`) goes through a pointer and does persist. -/
def preNoMachine (pre : PreOracle) (a : ImagePartitionAction)
    (ctx : DebosContext) : Except String (ImagePartitionAction × DebosContext) :=
  match pre.openResult with
  | Except.error e => Except.error ("Couldn't open image file: " ++ e)
  | Except.ok _ =>
    match pre.truncateResult with
    | Except.error e => Except.error ("Couldn't resize image file: " ++ e)
    | Except.ok _ =>
      match pre.losetup with
      | Except.error _ => Except.error "Failed to setup loop device"
      | Except.ok loop =>
        Except.ok ({ a with usingLoop := true }, { ctx with Image := goTrim loop })

/-- Outcomes of the external commands `Run` issues, indexed by the
position of the partition or mount being processed: `parted mklabel`,
`parted mkpart`, `parted set <number> <flag> on`, the mkfs command, the
`blkid` UUID read, and the mount system call. -/
structure RunOracle where
  mklabel : Except String Unit
  mkpart : Nat → Except String Unit
  setFlag : Nat → String → Except String Unit
  mkfs : Nat → Except String Unit
  blkid : Nat → Except String String
  mount : Nat → Except String Unit

/-- Embeds the `parted set <number> <flag> on` loop of `Run`
(lines 280-288): flags are applied in order and the first failure
aborts. -/
def applyFlags (setFlag : String → Except String Unit) :
    List String → Except String Unit
  | [] => Except.ok ()
  | f :: rest =>
    match setFlag f with
    | Except.error e => Except.error e
    | Except.ok _ => applyFlags setFlag rest

/-- Embeds the per-partition loop of `Run` (lines 266-294): for each
partition in declaration order, `parted mkpart` (with the partition's own
name under gpt, the generic "primary" otherwise), then its flags, then
`formatPartition`.  The index argument tracks the position used to query
the oracle. -/
def runPartitions (orc : RunOracle) (ptype image : String) :
    Nat → List Partition → Except String (List Partition)
  | _, [] => Except.ok []
  | idx, p :: rest =>
    let _mkpartName := if ptype = "gpt" then p.Name else "primary"
    match orc.mkpart idx with
    | Except.error e => Except.error e
    | Except.ok _ =>
      match applyFlags (orc.setFlag idx) p.Flags with
      | Except.error e => Except.error e
      | Except.ok _ =>
        match formatPartition (orc.mkfs idx) (orc.blkid idx) image p with
        | Except.error e => Except.error e
        | Except.ok p =>
          match runPartitions orc ptype image (idx + 1) rest with
          | Except.error e => Except.error e
          | Except.ok rest => Except.ok (p :: rest)

/-- One mount operation actually issued by `Run`: device node, mount path
and the filesystem type handed to the mount system call. -/
structure MountOp where
  dev : String
  mntpath : String
  fsType : String
deriving DecidableEq, Repr

/-- Embeds the mount loop of `Run` (lines 298-313): for each mount in
declaration order, derive the device path from the resolved partition's
number, join the mount path under the mount root, map the fat32 alias for
the mount call, and fail with "<name> mount failed" when the system call
does. -/
def runMounts (orc : RunOracle) (parts : List Partition)
    (image mntDir : String) : Nat → List Mountpoint → Except String (List MountOp)
  | _, [] => Except.ok []
  | idx, m :: rest =>
    match derefPart parts m with
    | none => Except.error "nil part pointer"
    | some p =>
      let dev := getPartitionDevice image p.number
      let mntpath := pathJoin mntDir m.Mountpoint
      let fs := mountFsType p.FS
      match orc.mount idx with
      | Except.error e => Except.error (p.Name ++ " mount failed: " ++ e)
      | Except.ok _ =>
        match runMounts orc parts image mntDir (idx + 1) rest with
        | Except.error e => Except.error e
        | Except.ok rest => Except.ok ({ dev := dev, mntpath := mntpath, fsType := fs } :: rest)

/-- What `Run` leaves behind on success: the partitions (with UUIDs
filled in through the shared slice backing array), the mount operations it
issued, and the updated context. -/
structure RunResult where
  parts : List Partition
  mountOps : List MountOp
  ctx : DebosContext
deriving DecidableEq, Repr

/-- Embeds `ImagePartitionAction.Run` (lines 260-326): `parted mklabel`,
the partition loop, the mount loop (with the mount root placed at
`<scratchdir>/mnt`), then fstab and kernel-root generation, each failure
aborting.  `Run` has a value receiver, but the `FSUUID` writes go through
`*Partition` pointers into the shared `Partitions` backing array, so the
updated partitions are part of the result. -/
def run (orc : RunOracle) (a : ImagePartitionAction) (ctx : DebosContext) :
    Except String RunResult :=
  match orc.mklabel with
  | Except.error e => Except.error e
  | Except.ok _ =>
    match runPartitions orc a.PartitionType ctx.Image 0 a.Partitions with
    | Except.error e => Except.error e
    | Except.ok parts =>
      let mntDir := pathJoin ctx.Scratchdir "mnt"
      match runMounts orc parts ctx.Image mntDir 0 a.Mountpoints with
      | Except.error e => Except.error e
      | Except.ok mountOps =>
        match generateFSTab parts a.Mountpoints with
        | Except.error e => Except.error e
        | Except.ok fstab =>
          match generateKernelRoot parts a.Mountpoints ctx.ImageKernelRoot with
          | Except.error e => Except.error e
          | Except.ok kroot =>
            Except.ok (RunResult.mk parts mountOps { ctx with
              ImageMntDir := mntDir, ImageFSTab := fstab, ImageKernelRoot := kroot })

/-- An operation issued by `Cleanup`: an unmount of a mount path, or a
`losetup -d` detach of the image's loop device. -/
inductive CleanupOp where
  | unmount (mntpath : String)
  | loopDetach (image : String)
deriving DecidableEq, Repr

/-- True for the loop-detach operation. -/
def CleanupOp.isDetach : CleanupOp → Bool
  | CleanupOp.unmount _ => false
  | CleanupOp.loopDetach _ => true

/-- True for an unmount operation. -/
def CleanupOp.isUnmount : CleanupOp → Bool
  | CleanupOp.unmount _ => true
  | CleanupOp.loopDetach _ => false

/-- Embeds the unmount loop of `Cleanup` (lines 329-333), which iterates
the mount list by index from `len-1` down to `0`: structurally, the rest
of the list (the later-declared mounts) is processed first and the head
last. -/
def cleanupUnmounts (mntDir : String) : List Mountpoint → List CleanupOp
  | [] => []
  | m :: rest =>
    cleanupUnmounts mntDir rest ++ [CleanupOp.unmount (pathJoin mntDir m.Mountpoint)]

/-- Embeds `ImagePartitionAction.Cleanup` (lines 328-340): unmount every
mount point in reverse declaration order, then detach the loop device iff
`usingLoop` is set on the receiver.  The results of the unmount system
calls and of `losetup -d` are DISCARDED by the source, and `Cleanup`
returns nil unconditionally; the oracles are therefore taken as inputs
but never inspected. -/
def cleanup (unmountResult : String → Except String Unit)
    (detachResult : Except String Unit) (a : ImagePartitionAction)
    (ctx : DebosContext) : List CleanupOp × Except String Unit :=
  let _ := unmountResult
  let _ := detachResult
  let ops := cleanupUnmounts ctx.ImageMntDir a.Mountpoints
  let ops := if a.usingLoop then ops ++ [CleanupOp.loopDetach ctx.Image] else ops
  (ops, Except.ok ())

/-- What the no-machine pipeline leaves behind: the final context, the
operations `Cleanup` issued, and the final partitions. -/
structure PipelineResult where
  ctx : DebosContext
  cleanupOps : List CleanupOp
  parts : List Partition
deriving DecidableEq, Repr

/-- Embeds the driver's direct-host path (`cmd/debos/debos.go`,
lines 227-243) for a recipe whose action list is a single
image-partition action: `Verify`, then `PreNoMachine`, then `Run`, then
`Cleanup`, aborting at the first error.  Receiver semantics are applied
at each hand-off: `Verify` (pointer receiver) replaces the stored action;
`PreNoMachine` (value receiver) only contributes its context update, its
`usingLoop := true` being lost with the method's copy; `Run` (value
receiver) contributes the `FSUUID` updates because they travel through
the shared `Partitions` backing array; `Cleanup` then sees the stored
action, whose `usingLoop` is still false. -/
def pipelineNoMachine (parseSize : String → Option Int) (pre : PreOracle)
    (orc : RunOracle) (unmountResult : String → Except String Unit)
    (detachResult : Except String Unit) (a0 : ImagePartitionAction)
    (ctx0 : DebosContext) : Except String PipelineResult :=
  match verify parseSize a0 with
  | Except.error e => Except.error e
  | Except.ok a1 =>
    match preNoMachine pre a1 ctx0 with
    | Except.error e => Except.error e
    | Except.ok (_copy, ctx1) =>
      match run orc a1 ctx1 with
      | Except.error e => Except.error e
      | Except.ok res =>
        let a2 := { a1 with Partitions := res.parts }
        let cl := cleanup unmountResult detachResult a2 res.ctx
        Except.ok (PipelineResult.mk res.ctx cl.1 res.parts)

/-- The fstab line format as the spec states it, per mount: one line
`UUID=<uuid>\t<mountpoint>\t<fs>\t<options>\t0\t0\n` where the options
column is "defaults" followed by the mount's extra options, comma-joined.
Written from the spec's words, to be compared with `generateFSTab`. -/
def fstabLineSpec (parts : List Partition) (m : Mountpoint) : String :=
  match derefPart parts m with
  | none => ""
  | some p =>
    "UUID=" ++ p.FSUUID ++ "\t" ++ m.Mountpoint ++ "\t" ++ fstabFsType p.FS ++
      "\t" ++ String.intercalate "," ("defaults" :: m.Options) ++ "\t0\t0\n"

/-! Concrete fixtures, taken from the spec's end-to-end scenario (a gpt
table with a fat32 `firmware` partition and an ext4 `root` partition,
mounted at `/boot/firmware` and `/` respectively). -/

/-- The firmware partition as declared in the recipe. -/
def exPart1 : Partition := ⟨0, "firmware", "0%", "64MB", "fat32", [], ""⟩

/-- The root partition as declared in the recipe. -/
def exPart2 : Partition := ⟨0, "root", "64MB", "100%", "ext4", ["boot"], ""⟩

/-- The root mount as declared in the recipe. -/
def exMount1 : Mountpoint := ⟨"/", "root", [], none⟩

/-- The firmware mount as declared in the recipe. -/
def exMount2 : Mountpoint := ⟨"/boot/firmware", "firmware", ["x-systemd.automount"], none⟩

/-- The recipe's image-partition action before any phase runs. -/
def exAction : ImagePartitionAction :=
  ⟨"debian-rpi3.img", "1GB", "gpt", [exPart1, exPart2], [exMount1, exMount2], 0, false⟩

/-- A concrete stand-in for `units.FromHumanSize` accepting the fixture's
size string. -/
def exParse : String → Option Int :=
  fun s => if s = "1GB" then some 1000000000 else none

/-- The action as stored after a successful `Verify`: partitions numbered
1 and 2, mounts resolved to the first matching partition, parsed size
recorded. -/
def exActionV : ImagePartitionAction :=
  ⟨"debian-rpi3.img", "1GB", "gpt",
    [⟨1, "firmware", "0%", "64MB", "fat32", [], ""⟩,
     ⟨2, "root", "64MB", "100%", "ext4", ["boot"], ""⟩],
    [⟨"/", "root", [], some 1⟩,
     ⟨"/boot/firmware", "firmware", ["x-systemd.automount"], some 0⟩],
    1000000000, false⟩

/-- The context at process start on the direct-host path. -/
def exCtx0 : DebosContext := ⟨"", "/scratch", "", "", ""⟩

/-- The context after `PreNoMachine` attached the loop device. -/
def exCtx1 : DebosContext := ⟨"/dev/loop0", "/scratch", "", "", ""⟩

/-- Host-operation outcomes for a `PreNoMachine` in which everything
succeeds and `losetup -f --show` prints the loop-device path. -/
def exPre : PreOracle := ⟨Except.ok (), Except.ok (), Except.ok "/dev/loop0\n"⟩

/-- Command outcomes for a `Run` in which every external command
succeeds; `blkid` reports one UUID per partition. -/
def exOrc : RunOracle :=
  ⟨Except.ok (), fun _ => Except.ok (), fun _ _ => Except.ok (),
   fun _ => Except.ok (),
   fun i => Except.ok (if i = 0 then "AAAA-1111\n" else "bbbb-2222\n"),
   fun _ => Except.ok ()⟩

/-- The partitions after `Run` formatted them: UUIDs filled in. -/
def exPartsFinal : List Partition :=
  [⟨1, "firmware", "0%", "64MB", "fat32", [], "AAAA-1111"⟩,
   ⟨2, "root", "64MB", "100%", "ext4", ["boot"], "bbbb-2222"⟩]

/-- The resolved mounts (as left by `Verify`; `Run` does not change
them). -/
def exMountsResolved : List Mountpoint :=
  [⟨"/", "root", [], some 1⟩,
   ⟨"/boot/firmware", "firmware", ["x-systemd.automount"], some 0⟩]

/-- Command outcomes identical to `exOrc` except that every mkfs
invocation exits non-zero. -/
def mkfsFailOrc : RunOracle :=
  ⟨Except.ok (), fun _ => Except.ok (), fun _ _ => Except.ok (),
   fun _ => Except.error "exit status 1",
   fun i => Except.ok (if i = 0 then "AAAA-1111\n" else "bbbb-2222\n"),
   fun _ => Except.ok ()⟩

/-- An action with two partitions that share the name "a" and a mount
referencing that name; every per-partition field is well-formed. -/
def dupAct : ImagePartitionAction :=
  ⟨"dup.img", "1GB", "gpt",
    [⟨0, "a", "0%", "50%", "ext4", [], ""⟩,
     ⟨0, "a", "50%", "100%", "ext4", [], ""⟩],
    [⟨"/", "a", [], none⟩], 0, false⟩

/-- A root partition whose UUID is still empty. -/
def cexRootParts : List Partition :=
  [⟨1, "root", "0%", "100%", "ext4", [], ""⟩]

/-- A resolved mount at "/" referencing that partition. -/
def cexRootMounts : List Mountpoint :=
  [⟨"/", "root", [], some 0⟩]

/-- A resolved mount list with no mount at "/". -/
def exNoRootMounts : List Mountpoint :=
  [⟨"/boot/firmware", "firmware", ["x-systemd.automount"], some 0⟩]

/-- The fixture's action with its mounts replaced by a single mount whose
partition name matches no declared partition. -/
def badAct : ImagePartitionAction :=
  ⟨"debian-rpi3.img", "1GB", "gpt", [exPart1, exPart2],
    [⟨"/data", "nosuch", [], none⟩], 0, false⟩

/-- What `Run` returns on the fixture with `exOrc`: formatted partitions,
the two mount operations, and the context carrying the generated fstab
and kernel-root parameter. -/
def exRunRes : RunResult :=
  ⟨exPartsFinal,
   [⟨"/dev/loop0p2", "/scratch/mnt//", "ext4"⟩,
    ⟨"/dev/loop0p1", "/scratch/mnt//boot/firmware", "vfat"⟩],
   ⟨"/dev/loop0", "/scratch", "/scratch/mnt",
    "UUID=bbbb-2222\t/\text4\tdefaults\t0\t0\nUUID=AAAA-1111\t/boot/firmware\tvfat\tdefaults,x-systemd.automount\t0\t0\n",
    "root=UUID=bbbb-2222"⟩⟩

/-! Helper lemmas shared by the claim theorems. -/

/-- A name search over the partition list misses iff no partition bears
the name. -/
theorem findPartIdx_none_iff (t : String) (parts : List Partition) :
    findPartIdx t parts = none ↔ ∀ p ∈ parts, p.Name ≠ t := by
  induction parts with
  | nil => simp [findPartIdx]
  | cons p rest ih =>
    by_cases h : t = p.Name
    · simp [findPartIdx, h]
    · simp only [findPartIdx, if_neg h, Option.map_eq_none', ih,
        List.forall_mem_cons]
      constructor
      · intro hr
        exact ⟨fun hc => h hc.symm, hr⟩
      · intro hr
        exact hr.2

/-- A successful name search returns the index of a partition bearing the
name. -/
theorem findPartIdx_some_get (t : String) (parts : List Partition) :
    ∀ i, findPartIdx t parts = some i →
      ∃ p, parts.get? i = some p ∧ p.Name = t := by
  induction parts with
  | nil => intro i h; simp [findPartIdx] at h
  | cons p rest ih =>
    intro i h
    by_cases hp : t = p.Name
    · simp only [findPartIdx, if_pos hp] at h
      cases h
      exact ⟨p, rfl, hp.symm⟩
    · simp only [findPartIdx, if_neg hp, Option.map_eq_some'] at h
      obtain ⟨j, hj, rfl⟩ := h
      obtain ⟨q, hq, hqn⟩ := ih j hj
      exact ⟨q, hq, hqn⟩

/-- Mount resolution succeeds iff every mount's partition name matches at
least one declared partition. -/
theorem resolveMounts_isOk_iff (parts : List Partition)
    (mounts : List Mountpoint) :
    (resolveMounts parts mounts).isOk = true ↔
      ∀ m ∈ mounts, ∃ p ∈ parts, p.Name = m.Partition := by
  induction mounts with
  | nil => simp [resolveMounts, Except.isOk, Except.toBool]
  | cons m rest ih =>
    cases hf : findPartIdx m.Partition parts with
    | none =>
      simp only [resolveMounts, hf, List.forall_mem_cons]
      constructor
      · intro h; simp [Except.isOk, Except.toBool] at h
      · intro h
        obtain ⟨p, hp, hn⟩ := h.1
        exact absurd hn ((findPartIdx_none_iff _ _).mp hf p hp)
    | some idx =>
      obtain ⟨p, hget, hname⟩ := findPartIdx_some_get _ _ _ hf
      cases hr : resolveMounts parts rest with
      | error e =>
        simp only [resolveMounts, hf, hr, List.forall_mem_cons]
        constructor
        · intro h; simp [Except.isOk, Except.toBool] at h
        · intro h
          have := (ih).mpr h.2
          rw [hr] at this
          simp [Except.isOk, Except.toBool] at this
      | ok ms =>
        simp only [resolveMounts, hf, hr, List.forall_mem_cons]
        constructor
        · intro _
          refine ⟨⟨p, List.get?_mem hget, hname⟩, ?_⟩
          have := (ih).mp (by rw [hr]; rfl)
          exact this
        · intro _; rfl

/-- A successful `verifyPartitions` numbers the partitions sequentially
from the start value and leaves every name in place. -/
theorem verifyPartitions_ok (ps : List Partition) :
    ∀ num ps', verifyPartitions num ps = Except.ok ps' →
      ps'.map Partition.number = List.range' num ps.length ∧
      ps'.map Partition.Name = ps.map Partition.Name := by
  induction ps with
  | nil =>
    intro num ps' h
    simp only [verifyPartitions] at h
    cases h
    simp [List.range']
  | cons p rest ih =>
    intro num ps' h
    simp only [verifyPartitions] at h
    split at h
    · exact absurd h (by simp)
    · split at h
      · exact absurd h (by simp)
      · split at h
        · exact absurd h (by simp)
        · split at h
          · exact absurd h (by simp)
          · cases hrec : verifyPartitions (num + 1) rest with
            | error e => rw [hrec] at h; exact absurd h (by simp)
            | ok rest' =>
              rw [hrec] at h
              cases h
              obtain ⟨hnum, hname⟩ := ih (num + 1) rest' hrec
              constructor
              · simp [hnum, List.range']
              · simp [hname]

/-- The unmount loop emits exactly the mount list's unmount operations in
reverse declaration order. -/
theorem cleanupUnmounts_eq (mntDir : String) (mounts : List Mountpoint) :
    cleanupUnmounts mntDir mounts =
      (mounts.map (fun m => CleanupOp.unmount (pathJoin mntDir m.Mountpoint))).reverse := by
  induction mounts with
  | nil => rfl
  | cons m rest ih => simp [cleanupUnmounts, ih]

/-! Claim theorems. -/

/-- C2: the device-path derivation rule.  The spec says a "by-id"-style
base path always yields `base + "-part" + n`, but the code applies a
suffix only when the base path ends in a digit, so
`/dev/disk/by-id/foo` with partition 3 yields `/dev/disk/by-id/foo3`,
not `/dev/disk/by-id/foo-part3`.  The two digit/non-digit examples do
hold as specified. -/
theorem getPartitionDevice_by_id_bug :
    getPartitionDevice "/dev/disk/by-id/foo" 3 = "/dev/disk/by-id/foo3" ∧
    getPartitionDevice "/dev/disk/by-id/disk1" 3 = "/dev/disk/by-id/disk1-part3" ∧
    getPartitionDevice "/tmp/image5" 2 = "/tmp/image5p2" ∧
    getPartitionDevice "/tmp/image" 1 = "/tmp/image1" := by
  refine ⟨?_, ?_, ?_, ?_⟩ <;> rfl

/-- C3: a non-zero exit of the mkfs command during `Run` does NOT make
`Run` return an error: `formatPartition` discards the result of
`debos.Command{}.Run`, so with every mkfs invocation failing and every
other command succeeding, `Run` still returns nil. -/
theorem run_succeeds_despite_mkfs_failure :
    mkfsFailOrc.mkfs 0 = Except.error "exit status 1" ∧
    (run mkfsFailOrc exActionV exCtx1).isOk = true := by
  exact ⟨rfl, by decide⟩

/-- C6: the "fat32" configuration alias maps to "vfat" uniformly in the
mkfs command line built by `formatPartition`, in the filesystem-type
argument of the mount call in `Run`, and in the filesystem column of the
generated fstab line; any other filesystem type is used verbatim in all
three places. -/
theorem fat32_alias_uniform (p : Partition) (device : String) :
    (p.FS = "fat32" →
      mkfsCmdline p device = ["mkfs.vfat", "-n", p.Name, device] ∧
      mountFsType p.FS = "vfat" ∧ fstabFsType p.FS = "vfat") ∧
    (p.FS ≠ "fat32" →
      mkfsCmdline p device = ["mkfs." ++ p.FS, "-L", p.Name, device] ∧
      mountFsType p.FS = p.FS ∧ fstabFsType p.FS = p.FS) := by
  constructor
  · intro h
    simp [mkfsCmdline, mountFsType, fstabFsType, h]
  · intro h
    simp [mkfsCmdline, mountFsType, fstabFsType, h]

/-- Witness for C6 at the fixture's fat32 firmware partition and ext4
root partition. -/
theorem fat32_alias_uniform_witness :
    (mkfsCmdline exPart1 "/dev/loop0p1" =
        ["mkfs.vfat", "-n", "firmware", "/dev/loop0p1"] ∧
      mountFsType exPart1.FS = "vfat" ∧ fstabFsType exPart1.FS = "vfat") ∧
    (mkfsCmdline exPart2 "/dev/loop0p2" =
        ["mkfs.ext4", "-L", "root", "/dev/loop0p2"] ∧
      mountFsType exPart2.FS = "ext4" ∧ fstabFsType exPart2.FS = "ext4") :=
  ⟨(fat32_alias_uniform exPart1 "/dev/loop0p1").1 rfl,
   (fat32_alias_uniform exPart2 "/dev/loop0p2").2 (by decide)⟩

/-- C8: `Cleanup` issues the unmount operations in exactly the reverse of
mount declaration order, whatever the unmount and detach outcomes are. -/
theorem cleanup_unmounts_reverse (ur : String → Except String Unit)
    (dr : Except String Unit) (a : ImagePartitionAction) (ctx : DebosContext) :
    (cleanup ur dr a ctx).1.filter CleanupOp.isUnmount =
      (a.Mountpoints.map
        (fun m => CleanupOp.unmount (pathJoin ctx.ImageMntDir m.Mountpoint))).reverse := by
  have hall : ∀ l : List Mountpoint,
      ((l.map (fun m => CleanupOp.unmount
          (pathJoin ctx.ImageMntDir m.Mountpoint))).reverse).filter
        CleanupOp.isUnmount =
      (l.map (fun m => CleanupOp.unmount
          (pathJoin ctx.ImageMntDir m.Mountpoint))).reverse := by
    intro l
    apply List.filter_eq_self.mpr
    intro op hop
    rw [List.mem_reverse] at hop
    obtain ⟨m, _, rfl⟩ := List.mem_map.mp hop
    rfl
  cases hl : a.usingLoop with
  | false =>
    simp [cleanup, hl, cleanupUnmounts_eq, hall]
  | true =>
    simp [cleanup, hl, cleanupUnmounts_eq, List.filter_append, hall,
      CleanupOp.isUnmount]

/-- C10: `Cleanup` returns nil unconditionally: the results of the
unmount system calls and of `losetup -d` are discarded, so no state or
external failure can make it report an error. -/
theorem cleanup_always_returns_nil (ur : String → Except String Unit)
    (dr : Except String Unit) (a : ImagePartitionAction) (ctx : DebosContext) :
    (cleanup ur dr a ctx).2 = Except.ok () := rfl

/-- C1: on the direct-host path the loop device is never detached.
`PreNoMachine` sets `usingLoop := true` on a value-receiver copy that the
caller discards, so `Cleanup` sees `usingLoop = false`: with every host
operation succeeding (the losetup attach included), the pipeline
completes and its cleanup operations contain no loop-detach, contrary to
the claim that detachment occurs whenever `PreNoMachine` provisioned the
image. -/
theorem pipeline_no_machine_never_detaches :
    exPre.losetup = Except.ok "/dev/loop0\n" ∧
    (pipelineNoMachine exParse exPre exOrc (fun _ => Except.ok ())
        (Except.ok ()) exAction exCtx0).toOption.map
      (fun r => (r.cleanupOps.filter CleanupOp.isDetach).length) = some 0 ∧
    (pipelineNoMachine exParse exPre exOrc (fun _ => Except.ok ())
        (Except.ok ()) exAction exCtx0).toOption.map
      (fun r => r.cleanupOps.length) = some 2 := by
  refine ⟨rfl, by decide, by decide⟩

/-- C4 counterexample: a recipe in which the name "a" matches two
declared partitions is accepted by `Verify`, contradicting the claim that
the action fails when a partition-name matches more than one declared
partition. -/
theorem verify_accepts_duplicate_names :
    (dupAct.Partitions.filter (fun p => p.Name == "a")).length = 2 ∧
    (verify exParse dupAct).isOk = true := ⟨rfl, rfl⟩

/-- C4 (amended): mount resolution succeeds iff every mount's
partition-name matches at least one declared partition (the first match
in declaration order is used; duplicate names are not rejected), and a
mount referencing an undeclared partition name makes `Verify` fail. -/
theorem verify_mount_resolution :
    (∀ parts mounts, (resolveMounts parts mounts).isOk = true ↔
      ∀ m ∈ mounts, ∃ p ∈ parts, p.Name = m.Partition) ∧
    (∀ pf a m, m ∈ a.Mountpoints →
      (∀ p ∈ a.Partitions, p.Name ≠ m.Partition) →
      (verify pf a).isOk = false) := by
  refine ⟨resolveMounts_isOk_iff, ?_⟩
  intro pf a m hm hnone
  simp only [verify]
  split
  · rfl
  next parts hv =>
    split
    · rfl
    next ms hr =>
      split
      · rfl
      next size hs =>
        exfalso
        have hok : (resolveMounts parts a.Mountpoints).isOk = true := by
          rw [hr]; rfl
        obtain ⟨p, hp, hpn⟩ :=
          (resolveMounts_isOk_iff parts a.Mountpoints).mp hok m hm
        have hnames := (verifyPartitions_ok a.Partitions 1 parts hv).2
        have hmem : p.Name ∈ a.Partitions.map Partition.Name := by
          rw [← hnames]
          exact List.mem_map_of_mem _ hp
        obtain ⟨q, hq, hqn⟩ := List.mem_map.mp hmem
        exact hnone q hq (hqn.trans hpn)

/-- Witness for C4's amended statement: the fixture's mounts all resolve,
and an action whose only mount references the undeclared name "nosuch" is
rejected by `Verify`. -/
theorem verify_mount_resolution_witness :
    (resolveMounts exActionV.Partitions exActionV.Mountpoints).isOk = true ∧
    (verify exParse badAct).isOk = false :=
  ⟨(verify_mount_resolution.1 exActionV.Partitions exActionV.Mountpoints).mpr
      (by decide),
   verify_mount_resolution.2 exParse badAct ⟨"/data", "nosuch", [], none⟩
      (by decide) (by decide)⟩

/-- C5: once every mount's partition pointer resolves, `generateFSTab`
fails iff some mount's partition UUID is still empty, and on success the
content is exactly one spec-formatted line
(`UUID=<uuid>\t<mountpoint>\t<fs>\t<options>\t0\t0\n`, options being
"defaults" plus the mount's extra options comma-joined) per mount, in
declaration order. -/
theorem generateFSTab_spec (parts : List Partition) (mounts : List Mountpoint)
    (hres : ∀ m ∈ mounts, (derefPart parts m).isSome = true) :
    ((generateFSTab parts mounts).isOk = true ↔
      ∀ m ∈ mounts, ∀ p, derefPart parts m = some p → p.FSUUID ≠ "") ∧
    ((∀ m ∈ mounts, ∀ p, derefPart parts m = some p → p.FSUUID ≠ "") →
      generateFSTab parts mounts =
        Except.ok ((mounts.map (fstabLineSpec parts)).foldr
          (fun a b => a ++ b) "")) := by
  induction mounts with
  | nil =>
    constructor
    · simp [generateFSTab, Except.isOk, Except.toBool]
    · intro _; rfl
  | cons m rest ih =>
    have hm : (derefPart parts m).isSome = true := hres m (by simp)
    obtain ⟨p, hp⟩ := Option.isSome_iff_exists.mp hm
    have hres' : ∀ m' ∈ rest, (derefPart parts m').isSome = true :=
      fun m' h => hres m' (by simp [h])
    obtain ⟨ih1, ih2⟩ := ih hres'
    by_cases hu : p.FSUUID = ""
    · constructor
      · constructor
        · intro h
          simp only [generateFSTab, hp] at h
          rw [if_pos hu] at h
          simp [Except.isOk, Except.toBool] at h
        · intro h
          exact absurd hu (h m (by simp) p hp)
      · intro h
        exact absurd hu (h m (by simp) p hp)
    · have hcont : (∀ m' ∈ rest, ∀ q, derefPart parts m' = some q →
          q.FSUUID ≠ "") →
          generateFSTab parts (m :: rest) =
            Except.ok (((m :: rest).map (fstabLineSpec parts)).foldr
              (fun a b => a ++ b) "") := by
        intro h
        have hrest := ih2 h
        simp only [generateFSTab, hp]
        rw [if_neg hu, hrest]
        simp [fstabLineSpec, hp]
      constructor
      · constructor
        · intro h m' hm' q hq
          rcases List.mem_cons.mp hm' with heq | hmem
          · subst heq
            rw [hp] at hq
            cases hq
            exact hu
          · simp only [generateFSTab, hp] at h
            rw [if_neg hu] at h
            cases hrest : generateFSTab parts rest with
            | error e =>
              rw [hrest] at h
              simp [Except.isOk, Except.toBool] at h
            | ok tail =>
              exact ih1.mp (by rw [hrest]; rfl) m' hmem q hq
        · intro h
          have := hcont (fun m' hm' q hq => h m' (by simp [hm']) q hq)
          rw [this]
          rfl
      · intro h
        exact hcont (fun m' hm' q hq => h m' (by simp [hm']) q hq)

/-- Witness for C5 on the fixture: both partitions carry UUIDs and the
generated content is the two expected tab-separated lines in declaration
order. -/
theorem generateFSTab_spec_witness :
    generateFSTab exPartsFinal exMountsResolved = Except.ok
      "UUID=bbbb-2222\t/\text4\tdefaults\t0\t0\nUUID=AAAA-1111\t/boot/firmware\tvfat\tdefaults,x-systemd.automount\t0\t0\n" :=
  (generateFSTab_spec exPartsFinal exMountsResolved (by decide)).2 (by decide)

/-- C7 counterexample: with a declared mount at "/" whose partition UUID
is still empty, `generateKernelRoot` returns an error and the kernel-root
parameter is not set, so "parameter set iff a mount at / is declared"
fails as stated. -/
theorem generateKernelRoot_empty_uuid_error :
    (cexRootMounts.filter (fun m => m.Mountpoint == "/")).length = 1 ∧
    generateKernelRoot cexRootParts cexRootMounts "" =
      Except.error "No fs UUID for root partition !?!" := ⟨rfl, rfl⟩

/-- C7 (amended): when no mount at "/" is declared the parameter is left
unchanged and no error is returned; when the first declared "/" mount
resolves to a partition with a non-empty UUID the parameter is set to
`root=UUID=<uuid>`; when that partition's UUID is empty
`generateKernelRoot` returns an error instead. -/
theorem generateKernelRoot_amended (parts : List Partition)
    (mounts : List Mountpoint) (current : String) :
    ((∀ m ∈ mounts, m.Mountpoint ≠ "/") →
      generateKernelRoot parts mounts current = Except.ok current) ∧
    (∀ m p, mounts.find? (fun x => x.Mountpoint == "/") = some m →
      derefPart parts m = some p → p.FSUUID ≠ "" →
      generateKernelRoot parts mounts current =
        Except.ok ("root=UUID=" ++ p.FSUUID)) ∧
    (∀ m p, mounts.find? (fun x => x.Mountpoint == "/") = some m →
      derefPart parts m = some p → p.FSUUID = "" →
      (generateKernelRoot parts mounts current).isOk = false) := by
  induction mounts with
  | nil =>
    refine ⟨fun _ => rfl, ?_, ?_⟩ <;> intro m p hfind <;> simp at hfind
  | cons m0 rest ih =>
    obtain ⟨ih1, ih2, ih3⟩ := ih
    by_cases h0 : m0.Mountpoint = "/"
    · refine ⟨?_, ?_, ?_⟩
      · intro hall
        exact absurd h0 (hall m0 (by simp))
      · intro m p hfind hderef hne
        rw [List.find?_cons_of_pos _ (by simp [h0])] at hfind
        cases hfind
        simp only [generateKernelRoot, if_pos h0, hderef]
        rw [if_neg hne]
      · intro m p hfind hderef hu
        rw [List.find?_cons_of_pos _ (by simp [h0])] at hfind
        cases hfind
        simp only [generateKernelRoot, if_pos h0, hderef]
        rw [if_pos hu]
        rfl
    · refine ⟨?_, ?_, ?_⟩
      · intro hall
        simp only [generateKernelRoot, if_neg h0]
        exact ih1 (fun m hm => hall m (by simp [hm]))
      · intro m p hfind hderef hne
        rw [List.find?_cons_of_neg _ (by simp [h0])] at hfind
        simp only [generateKernelRoot, if_neg h0]
        exact ih2 m p hfind hderef hne
      · intro m p hfind hderef hu
        rw [List.find?_cons_of_neg _ (by simp [h0])] at hfind
        simp only [generateKernelRoot, if_neg h0]
        exact ih3 m p hfind hderef hu

/-- Witness for C7's amended statement: no "/" mount leaves the parameter
untouched without error; the fixture's "/" mount sets it from the root
partition's UUID; the empty-UUID "/" mount produces an error. -/
theorem generateKernelRoot_amended_witness :
    generateKernelRoot exPartsFinal exNoRootMounts "" = Except.ok "" ∧
    generateKernelRoot exPartsFinal exMountsResolved "" =
      Except.ok ("root=UUID=" ++ "bbbb-2222") ∧
    (generateKernelRoot cexRootParts cexRootMounts "").isOk = false :=
  ⟨(generateKernelRoot_amended exPartsFinal exNoRootMounts "").1 (by decide),
   (generateKernelRoot_amended exPartsFinal exMountsResolved "").2.1
     ⟨"/", "root", [], some 1⟩ ⟨2, "root", "64MB", "100%", "ext4", ["boot"], "bbbb-2222"⟩
     (by decide) (by decide) (by decide),
   (generateKernelRoot_amended cexRootParts cexRootMounts "").2.2
     ⟨"/", "root", [], some 0⟩ ⟨1, "root", "0%", "100%", "ext4", [], ""⟩
     (by decide) (by decide) rfl⟩

/-- A successful partition loop of `Run` never changes a partition's
ordinal number: `formatPartition` only fills in the UUID. -/
theorem runPartitions_numbers (orc : RunOracle) (ptype image : String)
    (ps : List Partition) : ∀ i ps',
    runPartitions orc ptype image i ps = Except.ok ps' →
      ps'.map Partition.number = ps.map Partition.number := by
  induction ps with
  | nil =>
    intro i ps' h
    simp only [runPartitions] at h
    cases h
    rfl
  | cons p rest ih =>
    intro i ps' h
    simp only [runPartitions] at h
    cases hmk : orc.mkpart i with
    | error e => rw [hmk] at h; simp at h
    | ok u =>
      rw [hmk] at h
      cases hfl : applyFlags (orc.setFlag i) p.Flags with
      | error e => rw [hfl] at h; simp at h
      | ok v =>
        rw [hfl] at h
        cases hfmt : formatPartition (orc.mkfs i) (orc.blkid i) image p with
        | error e => rw [hfmt] at h; simp at h
        | ok q =>
          rw [hfmt] at h
          cases hrec : runPartitions orc ptype image (i + 1) rest with
          | error e => rw [hrec] at h; simp at h
          | ok rest' =>
            rw [hrec] at h
            cases h
            have hq : q.number = p.number := by
              simp only [formatPartition] at hfmt
              cases hb : orc.blkid i with
              | error e => rw [hb] at hfmt; simp at hfmt
              | ok out =>
                rw [hb] at hfmt
                cases hfmt
                rfl
            simp [hq, ih (i + 1) rest' hrec]

/-- A successful `Run` leaves the partitions' ordinal numbers exactly as
they were. -/
theorem run_parts_numbers (orc : RunOracle) (a : ImagePartitionAction)
    (ctx : DebosContext) (res : RunResult) (h : run orc a ctx = Except.ok res) :
    res.parts.map Partition.number = a.Partitions.map Partition.number := by
  simp only [run] at h
  split at h
  · simp at h
  · split at h
    · simp at h
    next parts hrp =>
      split at h
      · simp at h
      next mountOps hrm =>
        split at h
        · simp at h
        next fstab hft =>
          split at h
          · simp at h
          next kroot hkr =>
            cases h
            simpa using runPartitions_numbers orc a.PartitionType ctx.Image
              a.Partitions 0 parts hrp

/-- C9: a successful `Verify` numbers the N declared partitions exactly
1..N in declaration order, and a subsequent successful `Run` leaves those
numbers untouched. -/
theorem verify_assigns_ordinals (pf : String → Option Int)
    (a a' : ImagePartitionAction) (h : verify pf a = Except.ok a') :
    a'.Partitions.map Partition.number = List.range' 1 a.Partitions.length ∧
    ∀ orc ctx res, run orc a' ctx = Except.ok res →
      res.parts.map Partition.number = a'.Partitions.map Partition.number := by
  constructor
  · simp only [verify] at h
    split at h
    · simp at h
    next parts hv =>
      split at h
      · simp at h
      next ms hr =>
        split at h
        · simp at h
        next size hs =>
          cases h
          simpa using (verifyPartitions_ok a.Partitions 1 parts hv).1
  · intro orc ctx res hrun
    exact run_parts_numbers orc a' ctx res hrun

/-- Witness for C9 on the fixture: the two partitions get numbers [1, 2]
at `Verify` and keep them through a successful `Run`. -/
theorem verify_assigns_ordinals_witness :
    exActionV.Partitions.map Partition.number =
      List.range' 1 exAction.Partitions.length ∧
    exRunRes.parts.map Partition.number =
      exActionV.Partitions.map Partition.number :=
  ⟨(verify_assigns_ordinals exParse exAction exActionV rfl).1,
   (verify_assigns_ordinals exParse exAction exActionV rfl).2 exOrc exCtx1
     exRunRes rfl⟩

end Debos
